import Mathlib

/-!
Verification development for a message-scraping and forwarding service.

The embedding models, from the JavaScript source:
* the message record and its `extractData` method (shared model file),
* the delivery queue (`MessageSender.processQueue`, `truncateText`,
  `formatMessage` placeholder values),
* the reconnect controller (`RealTimeListener.handleReconnect` and `stop`),
* the two ingestion paths (`ScraperService.processMessage`,
  `RealTimeListener.processRealTimeMessage`) and their duplicate-key handling.

JavaScript strings are modelled as lists of characters (`Str`), so that all
definitions are structurally recursive and evaluable by the kernel.
-/

/-- A JavaScript string, modelled as a list of characters. -/
abbrev Str := List Char

/-- The backtick character, the priority-code delimiter. -/
def backtickChar : Char := Char.ofNat 96

/-- JavaScript `String.prototype.includes`: `sub` occurs contiguously in `s`. -/
def containsStr (sub : Str) (s : Str) : Bool :=
  match s with
  | [] => sub.isEmpty
  | _ :: rest => sub.isPrefixOf s || containsStr sub rest

/-- JavaScript `String.prototype.trim`: drop whitespace from both ends. -/
def trimChars (s : Str) : Str :=
  ((s.dropWhile Char.isWhitespace).reverse.dropWhile Char.isWhitespace).reverse

/-- JavaScript `text.split('\n')`: split on every newline character,
keeping empty segments. -/
def splitOnNl : Str → List Str
  | [] => [[]]
  | c :: rest =>
    if c = '\n' then [] :: splitOnNl rest
    else
      match splitOnNl rest with
      | [] => [[c]]
      | seg :: segs => (c :: seg) :: segs

/-- `text.trim().split('\n').filter(line => line.trim().length > 0)`, the
line pipeline used by both `extractData` and the polling prefilter. -/
def splitLines (text : Str) : List Str :=
  (splitOnNl (trimChars text)).filter (fun l => !(trimChars l).isEmpty)

/-- Splits a maximal run of characters satisfying `p` off the front. -/
def spanList (p : Char → Bool) : Str → Str × Str
  | [] => ([], [])
  | c :: rest =>
    if p c then
      let (run, tail) := spanList p rest
      (c :: run, tail)
    else ([], c :: rest)

theorem spanList_snd_length_le (p : Char → Bool) (l : Str) :
    (spanList p l).2.length ≤ l.length := by
  induction l with
  | nil => simp [spanList]
  | cons c rest ih =>
    by_cases h : p c = true
    · simp only [spanList, h, if_pos]
      exact Nat.le_trans ih (Nat.le_succ _)
    · simp only [spanList, h]
      simp

/-- One step of the JavaScript regex scan for `[backtick][alnum x 4..20][backtick]`
(global flag), with explicit fuel for structural recursion.  At a backtick the
greedy quantifier consumes the maximal alphanumeric run; the match succeeds
exactly when that run has length 4 to 20 and is closed by another backtick,
in which case scanning resumes after the closing backtick, else at the
next character. -/
def scanBacktickAux : Nat → Str → List Str
  | 0, _ => []
  | _ + 1, [] => []
  | fuel + 1, c :: rest =>
    if c = backtickChar then
      match spanList Char.isAlphanum rest with
      | (run, b :: rest2) =>
        if b = backtickChar ∧ 4 ≤ run.length ∧ run.length ≤ 20 then
          run :: scanBacktickAux fuel rest2
        else scanBacktickAux fuel rest
      | (_, []) => scanBacktickAux fuel rest
    else scanBacktickAux fuel rest

/-- All matches of the priority-code regex in one (trimmed) line, left to
right, stripped of their backticks. -/
def scanBacktickCodes (s : Str) : List Str :=
  scanBacktickAux s.length s

/-- Pass 1 of `extractData`: priority codes from every line, in line order
then left-to-right order. -/
def backtickCodes (text : Str) : List Str :=
  (splitLines text).flatMap (fun l => scanBacktickCodes (trimChars l))

/-- The URL-marker test of `extractData` and of the polling prefilter:
the line contains http, .com, .net or .org. -/
def hasUrlMarker (c : Str) : Bool :=
  containsStr "http".data c || containsStr ".com".data c ||
  containsStr ".net".data c || containsStr ".org".data c

/-- Is this character in the class of domain-label characters of the regex? -/
def isLabelChar (ch : Char) : Bool := ch.isAlphanum || ch = '-'

/-- Case-insensitive literal match of `pat` (given in lowercase) against the
front of `s`; returns the consumed original characters. -/
def matchCI (pat : Str) (s : Str) : Option Str :=
  if (s.take pat.length).map Char.toLower = pat then some (s.take pat.length)
  else none

/-- The TLD alternation of the domain regex, tried in source order:
com, net, org, co.uk, tr (case-insensitive). -/
def matchTld (s : Str) : Option Str :=
  match matchCI "com".data s with
  | some t => some t
  | none =>
    match matchCI "net".data s with
    | some t => some t
    | none =>
      match matchCI "org".data s with
      | some t => some t
      | none =>
        match matchCI "co.uk".data s with
        | some t => some t
        | none => matchCI "tr".data s

/-- First (leftmost) match of the domain regex
`[a-zA-Z0-9-]+[.](com|net|org|co.uk|tr)`, case-insensitive: at each start
position, a maximal nonempty label run, a literal dot, then the TLD
alternation. -/
def domainMatch : Str → Option Str
  | [] => none
  | c :: rest =>
    match spanList isLabelChar (c :: rest) with
    | ([], _) => domainMatch rest
    | (lab, '.' :: after) =>
      match matchTld after with
      | some tld => some (lab ++ '.' :: tld)
      | none => domainMatch rest
    | (_, _) => domainMatch rest

/-- URL extracted from a line already classified as a URL line: the line
itself if it starts with http, otherwise https:// prepended to the first
domain-regex match, if any. -/
def urlOfLine (c : Str) : Option Str :=
  if "http".data.isPrefixOf c then some c
  else
    match domainMatch c with
    | some d => some ("https://".data ++ d)
    | none => none

/-- The fallback-code normalization of a line:
`cleanLine.replace(/[^A-Za-z0-9]/g, '')` on the trimmed line. -/
def fallbackCode (line : Str) : Str :=
  (trimChars line).filter Char.isAlphanum

/-- One line of pass 2 of `extractData`, threading the shared candidate-code
list and the website URL.  The fallback branch requires no backtick in the
line and the shared candidate list — which already holds the pass-1 codes —
to still be empty. -/
def pass2Step (acc : List Str × Option Str) (line : Str) : List Str × Option Str :=
  if hasUrlMarker (trimChars line) then
    match urlOfLine (trimChars line) with
    | some u => (acc.1, some u)
    | none => acc
  else
    if containsStr [backtickChar] (trimChars line) = false ∧ acc.1 = [] then
      if 4 ≤ (fallbackCode line).length ∧ (fallbackCode line).length ≤ 20 then
        (acc.1 ++ [fallbackCode line], acc.2)
      else acc
    else acc

/-- Both passes of `extractData`: candidate codes and website URL. -/
def extractPass2 (text : Str) : List Str × Option Str :=
  (splitLines text).foldl pass2Step (backtickCodes text, none)

/-- The candidate-code list produced by `extractData`. -/
def extractCodes (text : Str) : List Str := (extractPass2 text).1

/-- The website URL produced by `extractData` (last URL line wins). -/
def extractUrl (text : Str) : Option Str := (extractPass2 text).2

/-- The persisted message record (the fields of the mongoose schema that the
claims concern). -/
structure MessageRec where
  messageId : Nat
  channelId : Str
  channelUsername : Str
  text : Str
  bonusCode : Option Str
  allBonusCodes : List Str
  websiteUrl : Option Str
  hasBonus : Bool
  hasWebsite : Bool
  processed : Bool
deriving DecidableEq, Repr

/-- `extractData` result block: set the website URL and flag if one was found. -/
def applyUrl (m : MessageRec) (url : Option Str) : MessageRec :=
  match url with
  | some u => { m with websiteUrl := some u, hasWebsite := true }
  | none => m

/-- `extractData` result block: set primary code, flag and full list if any
candidate code was found. -/
def applyCodes (m : MessageRec) (codes : List Str) : MessageRec :=
  match codes with
  | [] => m
  | c :: _ => { m with bonusCode := some c, hasBonus := true, allBonusCodes := codes }

/-- `extractData` final block: unless both flags are set, force `hasBonus`
false and clear the primary code. -/
def applyCollapse (m : MessageRec) : MessageRec :=
  if !m.hasBonus || !m.hasWebsite then { m with hasBonus := false, bonusCode := none }
  else m

/-- `messageSchema.methods.extractData`: run both passes over the record text
and update the record. -/
def extractData (m : MessageRec) : MessageRec :=
  applyCollapse (applyCodes (applyUrl m (extractUrl m.text)) (extractCodes m.text))

/-- A freshly constructed message document, before extraction (defaults of
the schema: no codes, no URL, flags false, not processed). -/
def mkFreshMessage (msgId : Nat) (chanId chanUser text : Str) : MessageRec :=
  { messageId := msgId, channelId := chanId, channelUsername := chanUser,
    text := text, bonusCode := none, allBonusCodes := [], websiteUrl := none,
    hasBonus := false, hasWebsite := false, processed := false }

/-- Extraction run on a fresh document, as both ingestion paths do. -/
def extractFresh (text : Str) : MessageRec :=
  extractData (mkFreshMessage 1 "c1".data "chan".data text)

example : extractCodes "http://x.com".data = [] := by decide
example : (extractFresh "http://x.com".data).hasWebsite = true := by decide
example : (extractFresh "http://x.com".data).hasBonus = false := by decide
example : (extractFresh "abcd\nefgh\nhttp://x.com".data).allBonusCodes = ["abcd".data] := by decide
example : backtickCodes "`ABCD1234`\nrandomline\nhttp://x.com".data = ["ABCD1234".data] := by decide
example : (extractFresh "`ABCD1234`\nrandomline\nhttp://x.com".data).bonusCode = some "ABCD1234".data := by decide
example : (extractFresh "`ABCD1234`".data).bonusCode = none := by decide
example : domainMatch "example.tr".data = some "example.tr".data := by decide
example : (extractFresh "example.tr".data).websiteUrl = none := by decide
example : (extractFresh "example.tr".data).allBonusCodes = ["exampletr".data] := by decide
example : (extractFresh "oyna.co.uk keyfine\nkod ABCD\nsitemiz.com".data).websiteUrl
    = some "https://sitemiz.com".data := by decide

/-! ### Delivery queue (`MessageSender`) -/

/-- Result of one send against the rate-limited sink: success, a FLOOD_WAIT
signal carrying the mandated wait in seconds, or some other error. -/
inductive SendOutcome where
  | ok : SendOutcome
  | floodWait (seconds : Nat) : SendOutcome
  | otherError : SendOutcome
deriving DecidableEq, Repr

/-- The observable state of `MessageSender`: the in-memory queue, the
chronological log of successful sends, the log of flood-wait suspensions,
and the sent counter. -/
structure SenderState (J : Type) where
  sendQueue : List J
  sentLog : List J
  sleeps : List Nat
  sentCount : Nat
deriving DecidableEq, Repr

/-- The batch loop body of `MessageSender.processQueue`: jobs of the spliced
batch are tried in order; a success is logged and counted; a FLOOD_WAIT
failure pushes the job back to the front of the remaining queue and records
the mandated sleep, after which the loop continues with the rest of the
batch; any other error drops the job. -/
def runBatch {J : Type} (send : J → SendOutcome) : List J → SenderState J → SenderState J
  | [], s => s
  | j :: rest, s =>
    match send j with
    | .ok => runBatch send rest
        { s with sentLog := s.sentLog ++ [j], sentCount := s.sentCount + 1 }
    | .floodWait w => runBatch send rest
        { s with sendQueue := j :: s.sendQueue, sleeps := s.sleeps ++ [w] }
    | .otherError => runBatch send rest s

/-- `MessageSender.processQueue`: if the queue is nonempty, splice off a
batch-size prefix and run the batch loop over it. -/
def processQueue {J : Type} (send : J → SendOutcome) (batchSize : Nat)
    (s : SenderState J) : SenderState J :=
  if s.sendQueue.isEmpty then s
  else runBatch send (s.sendQueue.take batchSize)
    { s with sendQueue := s.sendQueue.drop batchSize }

/-- `MessageSender.truncateText`: return the text unchanged if within the
cap, else the first `maxLength - 3` characters followed by an ellipsis. -/
def truncateText (text : Str) (maxLength : Nat) : Str :=
  if text.length ≤ maxLength then text
  else text.take (maxLength - 3) ++ "...".data

/-- The value substituted for the message-text placeholder in
`MessageSender.formatMessage`: the original text truncated at 200. -/
def messageTextPlaceholder (m : MessageRec) : Str :=
  truncateText m.text 200

/-! ### Reconnect controller (`RealTimeListener`) -/

/-- The observable state of `RealTimeListener`. -/
structure ListenerState where
  isListening : Bool
  heartbeatActive : Bool
  channelEntities : List Str
  reconnectAttempts : Nat
  maxReconnectAttempts : Nat
deriving DecidableEq, Repr

/-- `RealTimeListener.stop`: leave listening, clear the heartbeat timer and
the channel-entity map.  The attempt counter is not reset. -/
def stopListener (s : ListenerState) : ListenerState :=
  { s with isListening := false, heartbeatActive := false, channelEntities := [] }

/-- One pass of `RealTimeListener.start`, parameterized by whether the
connect sequence succeeds: on success the listener is listening with a fresh
entity map, a running heartbeat and a reset attempt counter; on failure the
catch block defers to another reconnect (flagged in the result).  The middle
component counts connect attempts issued, the last flags a rescheduled
reconnect. -/
def startStep (connectOk : Bool) (entities : List Str) (s : ListenerState) :
    ListenerState × Nat × Bool :=
  if connectOk then
    ({ s with isListening := true, heartbeatActive := true,
              channelEntities := entities, reconnectAttempts := 0 }, 1, false)
  else (s, 1, true)

/-- One pass of `RealTimeListener.handleReconnect`: if the attempt counter
has reached the configured maximum, stop and issue no connect attempt;
otherwise increment the counter, stop, and re-run the start sequence. -/
def handleReconnectStep (connectOk : Bool) (entities : List Str)
    (s : ListenerState) : ListenerState × Nat × Bool :=
  if s.maxReconnectAttempts ≤ s.reconnectAttempts then (stopListener s, 0, false)
  else
    startStep connectOk entities
      (stopListener { s with reconnectAttempts := s.reconnectAttempts + 1 })

/-! ### Persistent store and duplicate-key handling -/

/-- Does the store already hold a message with this (channelId, messageId)
key? -/
def hasKey (store : List MessageRec) (chanId : Str) (msgId : Nat) : Bool :=
  store.any (fun x => x.channelId == chanId && x.messageId == msgId)

/-- Number of stored messages with this key. -/
def countKey (store : List MessageRec) (chanId : Str) (msgId : Nat) : Nat :=
  (store.filter (fun x => x.channelId == chanId && x.messageId == msgId)).length

/-- Modelled from the spec: the persistent store itself (MongoDB behind the
mongoose unique compound index on channelId and messageId, declared in the
schema but executed outside this repository) — insert fails with the
duplicate-key condition, surfaced as error code 11000, exactly when the key
is already present; otherwise the record is appended. -/
def insertMessage (store : List MessageRec) (m : MessageRec) :
    Except Nat (List MessageRec) :=
  if hasKey store m.channelId m.messageId then .error 11000
  else .ok (store ++ [m])

/-- How a catch block disposes of an insert error: silently treated as
already known, or logged; neither rethrows. -/
inductive DupOutcome where
  | alreadyKnown : DupOutcome
  | loggedError : DupOutcome
deriving DecidableEq, Repr

/-- The catch block of `ScraperService.processMessage`: error code 11000 is
the message-already-exists signal and is skipped silently; any other error
is logged.  The batch is never aborted. -/
def processMessageCatch (code : Nat) : DupOutcome :=
  if code = 11000 then .alreadyKnown else .loggedError

/-- The catch block of `RealTimeListener.processRealTimeMessage`: same
disposition of error code 11000. -/
def realTimeCatch (code : Nat) : DupOutcome :=
  if code = 11000 then .alreadyKnown else .loggedError

/-! ### Processed-flag mutations -/

/-- Every source operation that writes a persisted message after creation. -/
inductive MessageOp where
  /-- `extractData` (the schema method; writes only extraction fields). -/
  | extractOp : MessageOp
  /-- `MessageSender.sendSingleMessage`: update to processed true after a
  successful send. -/
  | senderMarkProcessed : MessageOp
  /-- `ScraperService.processMessage`, existing-message branch: set
  processed true after resending. -/
  | batchMarkExisting : MessageOp
  /-- `ScraperService.processMessage`, new-message branch: set processed
  true after sending to the target groups. -/
  | batchMarkAfterSend : MessageOp

/-- Effect of each operation on the record. -/
def applyOp : MessageOp → MessageRec → MessageRec
  | .extractOp, m => extractData m
  | .senderMarkProcessed, m => { m with processed := true }
  | .batchMarkExisting, m => { m with processed := true }
  | .batchMarkAfterSend, m => { m with processed := true }

/-! ### Ingestion paths -/

/-- `ScraperService.shouldSendToGroups`: both flags, a primary code of
trimmed length at least 4, and a website URL starting with http. -/
def shouldSendToGroups (m : MessageRec) : Bool :=
  m.hasBonus && m.hasWebsite &&
  (match m.bonusCode with
   | none => false
   | some c => decide (4 ≤ (trimChars c).length)) &&
  (match m.websiteUrl with
   | none => false
   | some u => "http".data.isPrefixOf u)

/-- The messaging settings read by the live path's eligibility check. -/
structure LiveSettings where
  onlyWithBonusCode : Bool
  minMessageLength : Nat

/-- `RealTimeListener.shouldSendToGroups`: the live path's looser check —
`hasBonus` only when the config demands it, and a minimum raw-text length. -/
def shouldSendLive (st : LiveSettings) (m : MessageRec) : Bool :=
  (!st.onlyWithBonusCode || m.hasBonus) && decide (st.minMessageLength ≤ m.text.length)

/-- Outcome of ingesting one new source message. -/
inductive IngestResult where
  /-- Returned before creating the document: nothing persisted, extracted
  or enqueued. -/
  | skipped : IngestResult
  /-- Document persisted (after extraction), with the enqueue decision. -/
  | stored (doc : MessageRec) (enqueued : Bool) : IngestResult
deriving DecidableEq, Repr

/-- `ScraperService.processMessage` for a message with text that is not in
the store yet: the polling-path prefilter (2 to 5 nonempty lines, at least
one line with a URL marker) runs before any document is created; past it,
the document is created, extracted, saved, and conditionally enqueued and
marked processed. -/
def processPollMessage (msgId : Nat) (chanId chanUser : Str) (text : Str) :
    IngestResult :=
  if (splitLines text).length < 2 ∨ 5 < (splitLines text).length then .skipped
  else if !((splitLines text).any hasUrlMarker) then .skipped
  else if shouldSendToGroups (extractData (mkFreshMessage msgId chanId chanUser text)) then
    .stored { extractData (mkFreshMessage msgId chanId chanUser text) with processed := true } true
  else .stored (extractData (mkFreshMessage msgId chanId chanUser text)) false

/-- `RealTimeListener.processRealTimeMessage`: no prefilter — the document
is always created, extracted and saved, and the live eligibility check
alone gates enqueueing. -/
def processLiveMessage (st : LiveSettings) (msgId : Nat) (chanId chanUser : Str)
    (text : Str) : IngestResult :=
  .stored (extractData (mkFreshMessage msgId chanId chanUser text))
    (shouldSendLive st (extractData (mkFreshMessage msgId chanId chanUser text)))

/-! ### Spec-side characterizations -/

/-- A line that the fallback branch of pass 2 would accept, were the
candidate list empty when the line is reached: not a URL line, no backtick,
and a stripped form of length 4 to 20. -/
def fallbackEligible (line : Str) : Prop :=
  hasUrlMarker (trimChars line) = false ∧
  containsStr [backtickChar] (trimChars line) = false ∧
  4 ≤ (fallbackCode line).length ∧ (fallbackCode line).length ≤ 20

instance : DecidablePred fallbackEligible := fun line => by
  unfold fallbackEligible; infer_instance

/-- Spec-side description of what the fallback pass actually collects when
pass 1 found nothing: the stripped form of the first fallback-eligible line
only. -/
def specFirstFallback : List Str → Option Str
  | [] => none
  | l :: ls => if fallbackEligible l then some (fallbackCode l) else specFirstFallback ls

/-! ### Helper lemmas about pass 2 -/

theorem pass2Step_fst_of_ne (acc : List Str × Option Str) (line : Str)
    (h : acc.1 ≠ []) : (pass2Step acc line).1 = acc.1 := by
  unfold pass2Step
  split
  · split <;> rfl
  · split
    · rename_i hc
      exact absurd hc.2 h
    · rfl

theorem foldl_pass2_fst_of_ne (lines : List Str) :
    ∀ acc : List Str × Option Str, acc.1 ≠ [] →
      (lines.foldl pass2Step acc).1 = acc.1 := by
  induction lines with
  | nil => intro acc _; rfl
  | cons l ls ih =>
    intro acc h
    rw [List.foldl_cons]
    have hs := pass2Step_fst_of_ne acc l h
    rw [ih _ (by rw [hs]; exact h)]
    exact hs

theorem pass2Step_eligible (u : Option Str) (line : Str)
    (h : fallbackEligible line) :
    pass2Step ([], u) line = ([fallbackCode line], u) := by
  obtain ⟨h1, h2, h3, h4⟩ := h
  unfold pass2Step
  rw [if_neg (by simp [h1]), if_pos ⟨h2, rfl⟩, if_pos ⟨h3, h4⟩]
  rfl

theorem pass2Step_fst_of_not_eligible (u : Option Str) (line : Str)
    (h : ¬ fallbackEligible line) :
    (pass2Step ([], u) line).1 = [] := by
  unfold pass2Step
  split
  · split <;> rfl
  · split
    · split
      · rename_i hurl hmain hlen
        exact absurd ⟨Bool.not_eq_true _ ▸ hurl, hmain.1, hlen.1, hlen.2⟩ h
      · rfl
    · rfl

theorem foldl_pass2_first (lines : List Str) :
    ∀ u : Option Str,
      (lines.foldl pass2Step ([], u)).1 = (specFirstFallback lines).toList := by
  induction lines with
  | nil => intro u; simp [specFirstFallback]
  | cons l ls ih =>
    intro u
    by_cases h : fallbackEligible l
    · rw [List.foldl_cons, pass2Step_eligible u l h,
        foldl_pass2_fst_of_ne ls _ (by simp)]
      simp [specFirstFallback, h]
    · rw [List.foldl_cons]
      have h2 := pass2Step_fst_of_not_eligible u l h
      have h3 : pass2Step ([], u) l = ([], (pass2Step ([], u) l).2) :=
        Prod.ext_iff.mpr ⟨h2, rfl⟩
      rw [h3, ih]
      simp [specFirstFallback, h]

/-! ### Helper lemmas about the result assembly -/

theorem extract_allBonusCodes (text : Str) :
    (extractFresh text).allBonusCodes = extractCodes text := by
  cases hu : extractUrl text <;> cases hk : extractCodes text <;>
    simp [extractFresh, extractData, applyCollapse, applyCodes, applyUrl,
      mkFreshMessage, hu, hk]

theorem extractData_processed (m : MessageRec) :
    (extractData m).processed = m.processed := by
  unfold extractData
  cases hu : extractUrl m.text <;> cases hk : extractCodes m.text <;>
    simp [applyCollapse, applyCodes, applyUrl, hu, hk] <;> split <;> rfl

/-! ### Claim theorems -/

/-- C1 (counterexample): a text containing a URL line but no code candidate
yields hasWebsite = true in the returned record, not false as the claim
states — the eligibility collapse never resets hasWebsite. -/
theorem url_without_code_keeps_hasWebsite :
    extractCodes "http://x.com".data = [] ∧
    (extractUrl "http://x.com".data).isSome = true ∧
    (extractFresh "http://x.com".data).hasWebsite = true := by decide

/-- C1 (amended): the eligibility collapse is asymmetric — whenever
extraction does not find both a code and a URL, the returned record has
hasBonus = false and a null primary code, while hasWebsite simply reports
whether a URL was found (so URL-but-no-code leaves hasWebsite = true). -/
theorem eligibility_collapse_asymmetric (text : Str)
    (h : ¬(extractCodes text ≠ [] ∧ (extractUrl text).isSome = true)) :
    (extractFresh text).hasBonus = false ∧
    (extractFresh text).bonusCode = none ∧
    (extractFresh text).hasWebsite = (extractUrl text).isSome := by
  cases hu : extractUrl text <;> cases hk : extractCodes text <;>
    simp [extractFresh, extractData, applyCollapse, applyCodes, applyUrl,
      mkFreshMessage, hu, hk]
  exact absurd ⟨by simp [hk], by simp [hu]⟩ h

/-- C1 (witness): amended theorem applied to the URL-only text. -/
theorem eligibility_collapse_asymmetric_witness :
    (extractFresh "http://x.com".data).hasBonus = false ∧
    (extractFresh "http://x.com".data).bonusCode = none ∧
    (extractFresh "http://x.com".data).hasWebsite =
      (extractUrl "http://x.com".data).isSome :=
  eligibility_collapse_asymmetric "http://x.com".data (by decide)

/-- C3 (counterexample): a text in which pass 1 finds nothing and which has
two fallback-eligible lines yields only the first as candidate, not both —
the guard blocks on any earlier candidate, not only on pass-1 results. -/
theorem two_fallback_lines_yield_one :
    fallbackEligible "abcd".data ∧ fallbackEligible "efgh".data ∧
    backtickCodes "abcd\nefgh\nhttp://x.com".data = [] ∧
    (extractFresh "abcd\nefgh\nhttp://x.com".data).allBonusCodes
      = ["abcd".data] := by decide

/-- C3 (amended): when pass 1 finds no backtick codes, the candidate list
collected by pass 2 is exactly the stripped form of the first
fallback-eligible line, if any — later eligible lines are never added. -/
theorem fallback_collects_first_only (text : Str)
    (h : backtickCodes text = []) :
    (extractFresh text).allBonusCodes
      = (specFirstFallback (splitLines text)).toList := by
  have hc : extractCodes text = (specFirstFallback (splitLines text)).toList := by
    unfold extractCodes extractPass2
    rw [h]
    exact foldl_pass2_first (splitLines text) none
  rw [extract_allBonusCodes, hc]

/-- C3 (witness): amended theorem applied to the two-fallback-line text. -/
theorem fallback_collects_first_only_witness :
    (extractFresh "abcd\nefgh\nhttp://x.com".data).allBonusCodes
      = (specFirstFallback (splitLines "abcd\nefgh\nhttp://x.com".data)).toList :=
  fallback_collects_first_only "abcd\nefgh\nhttp://x.com".data (by decide)

/-- C7 (counterexample): on a text whose only line is a backtick code and
which has no URL line, pass 1 finds the code but the returned primary code
is null (the eligibility collapse clears it), so the primary code is not
the first backtick code for every input. -/
theorem backtick_without_url_primary_null :
    backtickCodes "`ABCD1234`".data = ["ABCD1234".data] ∧
    (extractFresh "`ABCD1234`".data).bonusCode ≠ some "ABCD1234".data ∧
    (extractFresh "`ABCD1234`".data).bonusCode = none := by decide

/-- C7 (amended): if pass 1 finds at least one backtick code, the candidate
list is exactly the pass-1 list (no fallback candidate is ever added; its
first entry is the first backtick code in line order then left-to-right
order), and the primary code equals that first code whenever a URL is also
found — when no URL is found the collapse clears the primary code. -/
theorem backtick_precedence (text : Str) (h : backtickCodes text ≠ []) :
    extractCodes text = backtickCodes text ∧
    ((extractUrl text).isSome = true →
      (extractFresh text).bonusCode = (backtickCodes text).head?) ∧
    ((extractUrl text).isSome = false →
      (extractFresh text).bonusCode = none) := by
  have hc : extractCodes text = backtickCodes text := by
    unfold extractCodes extractPass2
    exact foldl_pass2_fst_of_ne (splitLines text) (backtickCodes text, none) h
  refine ⟨hc, ?_, ?_⟩
  · intro hu
    rcases hu2 : extractUrl text with _ | u
    · rw [hu2] at hu; simp at hu
    · rcases hk : backtickCodes text with _ | ⟨c, cs⟩
      · exact absurd hk h
      · have hk2 : extractCodes text = c :: cs := by rw [hc, hk]
        simp [extractFresh, extractData, applyCollapse, applyCodes, applyUrl,
          mkFreshMessage, hu2, hk2]
  · intro hu
    rcases hu2 : extractUrl text with _ | u
    · rcases hk : backtickCodes text with _ | ⟨c, cs⟩
      · exact absurd hk h
      · have hk2 : extractCodes text = c :: cs := by rw [hc, hk]
        simp [extractFresh, extractData, applyCollapse, applyCodes, applyUrl,
          mkFreshMessage, hu2, hk2]
    · rw [hu2] at hu; simp at hu

/-- C7 (witness): amended theorem applied to the example text of the claim,
yielding primary code ABCD1234. -/
theorem backtick_precedence_witness :
    extractCodes "`ABCD1234`\nrandomline\nhttp://x.com".data
      = backtickCodes "`ABCD1234`\nrandomline\nhttp://x.com".data ∧
    (extractFresh "`ABCD1234`\nrandomline\nhttp://x.com".data).bonusCode
      = (backtickCodes "`ABCD1234`\nrandomline\nhttp://x.com".data).head? :=
  have h := backtick_precedence "`ABCD1234`\nrandomline\nhttp://x.com".data (by decide)
  ⟨h.1, h.2.1 (by decide)⟩

/-- C9: a line is classified as a URL line only when it contains one of the
four markers http, .com, .net, .org: on any other line the website URL is
left unchanged and the fallback branch is the one that can fire.  In
particular example.tr is accepted by the domain regex (whose allow-list has
tr and co.uk) yet is never treated as a URL line: extraction of the
single-line text example.tr sets no website URL and instead collects the
stripped line as a fallback candidate. -/
theorem url_marker_allow_list_asymmetry :
    (∀ (acc : List Str × Option Str) (line : Str),
      hasUrlMarker (trimChars line) = false →
        (pass2Step acc line).2 = acc.2 ∧
        (containsStr [backtickChar] (trimChars line) = false → acc.1 = [] →
          4 ≤ (fallbackCode line).length → (fallbackCode line).length ≤ 20 →
          pass2Step acc line = ([fallbackCode line], acc.2))) ∧
    hasUrlMarker (trimChars "example.tr".data) = false ∧
    domainMatch "example.tr".data = some "example.tr".data ∧
    (extractFresh "example.tr".data).websiteUrl = none ∧
    (extractFresh "example.tr".data).allBonusCodes = ["exampletr".data] := by
  refine ⟨?_, by decide, by decide, by decide, by decide⟩
  intro acc line h
  constructor
  · unfold pass2Step
    rw [if_neg (by simp [h])]
    split
    · split <;> rfl
    · rfl
  · intro h2 h3 h4 h5
    unfold pass2Step
    rw [if_neg (by simp [h]), if_pos ⟨h2, h3⟩, if_pos ⟨h4, h5⟩, h3]
    rfl

/-- C9 (witness): the general part applied to the line example.tr with an
empty accumulator. -/
theorem url_marker_allow_list_asymmetry_witness :
    (pass2Step ([], none) "example.tr".data).2 = (([], none) : List Str × Option Str).2 ∧
    pass2Step ([], none) "example.tr".data
      = ([fallbackCode "example.tr".data], (([], none) : List Str × Option Str).2) := by
  have h := url_marker_allow_list_asymmetry.1 ([], none) "example.tr".data (by decide)
  exact ⟨h.1, h.2 (by decide) rfl (by decide) (by decide)⟩

/-- C10: truncateText at cap 200 returns short texts unchanged, truncates
longer texts to the first 197 characters plus a three-character ellipsis,
and the value substituted for the message-text placeholder always has
length at most 200. -/
theorem truncate_cap :
    (∀ text : Str, text.length ≤ 200 → truncateText text 200 = text) ∧
    (∀ text : Str, 200 < text.length →
      truncateText text 200 = text.take 197 ++ "...".data) ∧
    (∀ m : MessageRec, (messageTextPlaceholder m).length ≤ 200) := by
  refine ⟨?_, ?_, ?_⟩
  · intro t ht
    unfold truncateText
    rw [if_pos ht]
  · intro t ht
    unfold truncateText
    rw [if_neg (by omega)]
  · intro m
    unfold messageTextPlaceholder truncateText
    by_cases h : m.text.length ≤ 200
    · rw [if_pos h]; exact h
    · rw [if_neg h, List.length_append, List.length_take]
      have h3 : ("...".data).length = 3 := by decide
      omega

/-- C10 (witness): truncate applied to a 201-character text and to a short
text. -/
theorem truncate_cap_witness :
    truncateText (List.replicate 201 'a') 200
      = (List.replicate 201 'a').take 197 ++ "...".data ∧
    truncateText "hi".data 200 = "hi".data :=
  ⟨truncate_cap.2.1 (List.replicate 201 'a') (by rw [List.length_replicate]; omega),
   truncate_cap.1 "hi".data (by decide)⟩

/-- C2 (counterexample): with queue [0, 1, 2] (jobs A, B, C) and a
FLOOD_WAIT on job 0 in the first drain, the chronological send log after
the next drain is [1, 2, 0] — order B, C, A, which the claim says can
never be observed. -/
theorem flood_wait_observed_order :
    (processQueue (fun _ => SendOutcome.ok) 3
      (processQueue
        (fun j => if j = 0 then SendOutcome.floodWait 30 else SendOutcome.ok) 3
        ⟨[0, 1, 2], [], [], 0⟩)).sentLog = [1, 2, 0] ∧
    (processQueue
        (fun j => if j = 0 then SendOutcome.floodWait 30 else SendOutcome.ok) 3
        ⟨[0, 1, 2], [], [], 0⟩).sendQueue = [0] := by decide

/-- C2 (amended): when sending A fails with FLOOD_WAIT, A is reinserted at
the front of the queue and the drain records the mandated sleep, but the
remaining batch jobs B and C are still sent within the same cycle; A is
retried at the head of the next drain, so the observed order is B, C, A,
not A, B, C. -/
theorem flood_wait_requeue_front {J : Type} (send : J → SendOutcome)
    (A B C : J) (w n : Nat) (hn : 3 ≤ n)
    (hA : send A = .floodWait w) (hB : send B = .ok) (hC : send C = .ok) :
    processQueue send n ⟨[A, B, C], [], [], 0⟩
      = ⟨[A], [B, C], [w], 2⟩ := by
  unfold processQueue
  rw [if_neg (by simp)]
  rw [List.take_of_length_le (by simpa using hn),
    List.drop_of_length_le (by simpa using hn)]
  simp only [runBatch, hA, hB, hC]
  rfl

/-- C2 (witness): the amended theorem at jobs 0, 1, 2 with FLOOD_WAIT 30 on
job 0. -/
theorem flood_wait_requeue_front_witness :
    processQueue
        (fun j => if j = 0 then SendOutcome.floodWait 30 else SendOutcome.ok) 3
        ⟨[0, 1, 2], [], [], 0⟩
      = ⟨[0], [1, 2], [30], 2⟩ :=
  flood_wait_requeue_front
    (fun j => if j = 0 then SendOutcome.floodWait 30 else SendOutcome.ok)
    0 1 2 30 3 (by decide) (by decide) (by decide) (by decide)

/-- C4: a second insert for an already present (channelId, messageId) key
fails with the duplicate-key code 11000, the store keeps exactly one
message for the key, and both ingestion catch blocks treat code 11000 as
already known (skipped, not rethrown). -/
theorem duplicate_key_is_dedup (store : List MessageRec) (m m2 : MessageRec)
    (hc : m2.channelId = m.channelId) (hi : m2.messageId = m.messageId)
    (habs : hasKey store m.channelId m.messageId = false) :
    insertMessage store m = .ok (store ++ [m]) ∧
    insertMessage (store ++ [m]) m2 = .error 11000 ∧
    countKey (store ++ [m]) m.channelId m.messageId = 1 ∧
    processMessageCatch 11000 = .alreadyKnown ∧
    realTimeCatch 11000 = .alreadyKnown := by
  refine ⟨?_, ?_, ?_, rfl, rfl⟩
  · unfold insertMessage
    rw [if_neg (by simp [habs])]
  · unfold insertMessage
    rw [if_pos (by simp [hasKey, hc, hi])]
  · unfold countKey
    rw [List.filter_append]
    have h0 : store.filter
        (fun x => x.channelId == m.channelId && x.messageId == m.messageId) = [] := by
      rw [List.filter_eq_nil_iff]
      intro a ha
      have h1 := List.any_eq_false.mp habs a ha
      simpa [hasKey] using h1
    rw [h0]
    simp

/-- C4 (witness): the theorem at an empty store with two records sharing
the key. -/
theorem duplicate_key_is_dedup_witness :
    insertMessage [] (mkFreshMessage 7 "chan9".data "u".data "hi".data)
      = .ok ([] ++ [mkFreshMessage 7 "chan9".data "u".data "hi".data]) ∧
    insertMessage ([] ++ [mkFreshMessage 7 "chan9".data "u".data "hi".data])
        (mkFreshMessage 7 "chan9".data "u".data "other".data)
      = .error 11000 ∧
    countKey ([] ++ [mkFreshMessage 7 "chan9".data "u".data "hi".data])
        (mkFreshMessage 7 "chan9".data "u".data "hi".data).channelId
        (mkFreshMessage 7 "chan9".data "u".data "hi".data).messageId = 1 ∧
    processMessageCatch 11000 = .alreadyKnown ∧
    realTimeCatch 11000 = .alreadyKnown :=
  duplicate_key_is_dedup [] (mkFreshMessage 7 "chan9".data "u".data "hi".data)
    (mkFreshMessage 7 "chan9".data "u".data "other".data) rfl rfl (by decide)

/-- C5: every post-creation operation on a persisted message either leaves
the processed flag unchanged or sets it to true; hence over any sequence of
operations the flag never reverts from true to false. -/
theorem processed_flag_monotone :
    (∀ (op : MessageOp) (m : MessageRec),
      (applyOp op m).processed = m.processed ∨ (applyOp op m).processed = true) ∧
    (∀ (ops : List MessageOp) (m : MessageRec), m.processed = true →
      (ops.foldl (fun acc op => applyOp op acc) m).processed = true) := by
  have h1 : ∀ (op : MessageOp) (m : MessageRec),
      (applyOp op m).processed = m.processed ∨ (applyOp op m).processed = true := by
    intro op m
    cases op
    · exact Or.inl (extractData_processed m)
    · exact Or.inr rfl
    · exact Or.inr rfl
    · exact Or.inr rfl
  refine ⟨h1, ?_⟩
  intro ops
  induction ops with
  | nil => intro m h; simpa using h
  | cons op ops ih =>
    intro m h
    rw [List.foldl_cons]
    apply ih
    rcases h1 op m with h2 | h2
    · rw [h2]; exact h
    · exact h2

/-- C5 (witness): a processed message stays processed across extraction and
a send-path update. -/
theorem processed_flag_monotone_witness :
    (([MessageOp.extractOp, MessageOp.senderMarkProcessed].foldl
        (fun acc op => applyOp op acc)
        { mkFreshMessage 1 "c".data "u".data "hi".data with processed := true }
      ).processed = true) :=
  processed_flag_monotone.2 [MessageOp.extractOp, MessageOp.senderMarkProcessed]
    { mkFreshMessage 1 "c".data "u".data "hi".data with processed := true } rfl

/-- C6: once the reconnect attempt counter has reached the configured
maximum, handleReconnect transitions the listener to the stopped state
(not listening, heartbeat cleared, channel entities cleared) and issues no
connect attempt; and a further handleReconnect from that stopped state
again issues no connect attempt (the counter is never reset by stop). -/
theorem reconnect_bound (s : ListenerState) (connectOk : Bool)
    (ents : List Str) (h : s.maxReconnectAttempts ≤ s.reconnectAttempts) :
    handleReconnectStep connectOk ents s = (stopListener s, 0, false) ∧
    (stopListener s).isListening = false ∧
    (stopListener s).heartbeatActive = false ∧
    (stopListener s).channelEntities = [] ∧
    handleReconnectStep connectOk ents (stopListener s)
      = (stopListener (stopListener s), 0, false) := by
  refine ⟨?_, rfl, rfl, rfl, ?_⟩
  · unfold handleReconnectStep
    rw [if_pos h]
  · unfold handleReconnectStep
    rw [if_pos (show (stopListener s).maxReconnectAttempts ≤ (stopListener s).reconnectAttempts from h)]

/-- C6 (witness): the theorem at a listener that has used all five allowed
attempts. -/
theorem reconnect_bound_witness :
    handleReconnectStep true ["e1".data]
        ⟨true, true, ["e1".data], 5, 5⟩
      = (stopListener ⟨true, true, ["e1".data], 5, 5⟩, 0, false) ∧
    (stopListener ⟨true, true, ["e1".data], 5, 5⟩).isListening = false ∧
    (stopListener ⟨true, true, ["e1".data], 5, 5⟩).heartbeatActive = false ∧
    (stopListener ⟨true, true, ["e1".data], 5, 5⟩).channelEntities = [] ∧
    handleReconnectStep true ["e1".data]
        (stopListener ⟨true, true, ["e1".data], 5, 5⟩)
      = (stopListener (stopListener ⟨true, true, ["e1".data], 5, 5⟩), 0, false) :=
  reconnect_bound ⟨true, true, ["e1".data], 5, 5⟩ true ["e1".data] (by decide)

/-- C8: a polled message whose text does not split into 2 to 5 nonempty
lines, or has no line with a URL marker, is skipped before any document is
created — nothing persisted, extracted or enqueued — while the live-push
path stores and extracts the same text unconditionally. -/
theorem poll_prefilter_skips (msgId : Nat) (chanId chanUser : Str)
    (text : Str)
    (h : (splitLines text).length < 2 ∨ 5 < (splitLines text).length ∨
      (splitLines text).any hasUrlMarker = false) :
    processPollMessage msgId chanId chanUser text = .skipped ∧
    ∀ st : LiveSettings,
      processLiveMessage st msgId chanId chanUser text
        = .stored (extractData (mkFreshMessage msgId chanId chanUser text))
            (shouldSendLive st
              (extractData (mkFreshMessage msgId chanId chanUser text))) := by
  constructor
  · unfold processPollMessage
    rcases h with h | h | h
    · rw [if_pos (Or.inl h)]
    · rw [if_pos (Or.inr h)]
    · by_cases h1 : (splitLines text).length < 2 ∨ 5 < (splitLines text).length
      · rw [if_pos h1]
      · rw [if_neg h1, if_pos (by simp [h])]
  · intro st
    rfl

/-- C8 (witness): a single-line text with a URL marker (too few lines) is
skipped by the poll path and stored by the live path. -/
theorem poll_prefilter_skips_witness :
    processPollMessage 3 "c".data "u".data "http://x.com bonus".data = .skipped ∧
    ∀ st : LiveSettings,
      processLiveMessage st 3 "c".data "u".data "http://x.com bonus".data
        = .stored (extractData (mkFreshMessage 3 "c".data "u".data "http://x.com bonus".data))
            (shouldSendLive st
              (extractData (mkFreshMessage 3 "c".data "u".data "http://x.com bonus".data))) :=
  poll_prefilter_skips 3 "c".data "u".data "http://x.com bonus".data (by decide)
